import Mathlib

/-!
# Verification of the Proma streaming chat orchestration core

Shallow embedding of the streaming chat engine of the Proma repository:

* `src/packages/core/src/providers/anthropic-adapter.ts`
* `src/packages/core/src/providers/google-adapter.ts`
* `src/apps/electron/src/main/lib/chat-service.ts`

Modelling conventions:

* JavaScript values produced by `JSON.parse` are modelled by the inductive
  `Json` type below; `JSON.parse` itself is a host-language primitive (not
  repository code), so it is taken as an abstract total function
  `String → Option Json`, where `none` models a thrown parse error (the
  adapters wrap the parse in `try`/`catch`).
* Field access `x?.f` on an untyped parsed value is `Option`-valued
  (`Json.getField`), JavaScript truthiness is `Json.truthy`, and `a || b`
  on possibly-absent values is `jsOr`.
* URL-normalisation helpers (`url-utils.ts`) are not part of the provided
  sources and are irrelevant to the claims; request builders take the
  normaliser as an explicit function parameter.
* The Electron side effects of `sendMessage` (IPC sends, JSONL appends,
  the `activeControllers` map) are made explicit: a run is a pure function
  from an environment (outcomes of the external collaborators: channel
  lookup, key decryption, each round's `streamSSE` call, the memory
  backend, the UUID supply) to the observable trace: emitted events,
  appended messages, final registry content.  The history store and the
  event sink are modelled as non-failing collaborators, as the spec
  treats them.
-/

/-! ## JavaScript value model -/

/-- A parsed JSON / JavaScript value (numbers restricted to integers;
no claim depends on fractional numerics). -/
inductive Json where
  | null
  | bool (b : Bool)
  | num (n : Int)
  | str (s : String)
  | arr (elems : List Json)
  | obj (fields : List (String × Json))

/-- Property access on an object, `undefined` (`none`) otherwise —
models `x?.f` on an arbitrary parsed value. -/
def Json.getField : Json → String → Option Json
  | .obj fields, key => (fields.find? (fun p => p.1 == key)).map (fun p => p.2)
  | _, _ => none

/-- Index access `x?.[0]` on an array value. -/
def Json.getIdx : Json → Nat → Option Json
  | .arr elems, i => elems.get? i
  | _, _ => none

/-- JavaScript truthiness of a value. -/
def Json.truthy : Json → Bool
  | .null => false
  | .bool b => b
  | .num n => n != 0
  | .str s => s != ""
  | .arr _ => true
  | .obj _ => true

/-- Truthiness of a possibly-`undefined` value (`undefined` is falsy). -/
def optTruthy (v : Option Json) : Bool :=
  match v with
  | some j => j.truthy
  | none => false

/-- Strict equality `x === "lit"` of a possibly-`undefined` value with a
string literal: true only for an equal string. -/
def Json.isStrEq (v : Option Json) (lit : String) : Bool :=
  match v with
  | some (.str s) => s == lit
  | _ => false

/-- JavaScript `x || dflt` for a possibly-`undefined` `x`. -/
def jsOr (v : Option Json) (dflt : Json) : Json :=
  match v with
  | some j => if j.truthy then j else dflt
  | none => dflt

/-- Read field `key` of a possibly-`undefined` value, with `undefined`
collapsed to `Json.null`; used only in branches where the code has already
established the field is truthy. -/
def jsGet (v : Option Json) (key : String) : Json :=
  ((v.bind (fun j => j.getField key)).getD Json.null)

/-! ## Canonical stream events (packages/core providers)

`StreamEvent` per `types.ts` as used by both adapters.  Payload fields keep
the raw JavaScript value: the source performs no shape validation on parsed
frames, so e.g. a non-string `delta.text` would be forwarded as-is. -/

inductive StreamEvent where
  | chunk (delta : Json)
  | reasoning (delta : Json)
  | tool_call_start (toolCallId toolName : Json) (metadata : Option Json)
  | tool_call_delta (toolCallId : Json) (argumentsDelta : Json)
  | done (stopReason : Json)

/-- A provider wire request; `body` is the object handed to
`JSON.stringify` (serialisation is a host primitive). -/
structure ProviderRequest where
  url : String
  headers : List (String × String)
  body : Json

/-- `TitleRequestInput` from `types.ts`. -/
structure TitleRequestInput where
  baseUrl : String
  apiKey : String
  modelId : String
  prompt : String

namespace AnthropicAdapter

/-- `AnthropicAdapter.parseSSELine` (anthropic-adapter.ts, lines 252-292).
The whole body is wrapped in `try`/`catch` returning `[]`; the only
fallible step is `JSON.parse` (modelled by the abstract `parse`); every
subsequent field access is optional-chained or guarded, hence total. -/
def parseSSELine (parse : String → Option Json) (jsonLine : String) : List StreamEvent :=
  match parse jsonLine with
  | none => []
  | some event =>
    let ty := event.getField "type"
    let cb := event.getField "content_block"
    let delta := event.getField "delta"
    let events₁ : List StreamEvent :=
      if Json.isStrEq ty "content_block_start"
          && Json.isStrEq (cb.bind (fun j => j.getField "type")) "tool_use" then
        [StreamEvent.tool_call_start
          (jsOr (cb.bind (fun j => j.getField "id")) (Json.str ""))
          (jsOr (cb.bind (fun j => j.getField "name")) (Json.str ""))
          none]
      else []
    let events₂ : List StreamEvent :=
      if Json.isStrEq ty "content_block_delta" then
        if Json.isStrEq (delta.bind (fun j => j.getField "type")) "thinking_delta"
            && optTruthy (delta.bind (fun j => j.getField "thinking")) then
          [StreamEvent.reasoning (jsGet delta "thinking")]
        else if Json.isStrEq (delta.bind (fun j => j.getField "type")) "input_json_delta"
            && optTruthy (delta.bind (fun j => j.getField "partial_json")) then
          [StreamEvent.tool_call_delta (Json.str "") (jsGet delta "partial_json")]
        else if optTruthy (delta.bind (fun j => j.getField "text")) then
          [StreamEvent.chunk (jsGet delta "text")]
        else []
      else []
    let events₃ : List StreamEvent :=
      if Json.isStrEq ty "message_delta"
          && optTruthy (delta.bind (fun j => j.getField "stop_reason")) then
        [StreamEvent.done (jsGet delta "stop_reason")]
      else []
    events₁ ++ events₂ ++ events₃

/-- `AnthropicAdapter.buildTitleRequest` (anthropic-adapter.ts, lines
294-313); `normalizeAnthropicBaseUrl` (url-utils.ts, not in the provided
sources) is passed in as a parameter. -/
def buildTitleRequest (normalizeAnthropicBaseUrl : String → String)
    (input : TitleRequestInput) : ProviderRequest :=
  let url := normalizeAnthropicBaseUrl input.baseUrl
  { url := url ++ "/messages"
    headers :=
      [("x-api-key", input.apiKey),
       ("Authorization", "Bearer " ++ input.apiKey),
       ("anthropic-version", "2023-06-01"),
       ("content-type", "application/json")]
    body := Json.obj
      [("model", Json.str input.modelId),
       ("max_tokens", Json.num 50),
       ("messages", Json.arr
         [Json.obj [("role", Json.str "user"), ("content", Json.str input.prompt)]]),
       ("thinking", Json.obj [("type", Json.str "disabled")])] }

end AnthropicAdapter

namespace GoogleAdapter

/-- Events produced for one element of `candidates[0].content.parts`
(body of the `for (const part of parts)` loop in
google-adapter.ts, lines 247-277).  `JSON.stringify(fc.args || {})` is
modelled by carrying the value to be serialised. -/
def partEvents (part : Json) : List StreamEvent :=
  if optTruthy (part.getField "functionCall") then
    let fc := (part.getField "functionCall").getD Json.null
    [StreamEvent.tool_call_start (jsGet (some fc) "name") (jsGet (some fc) "name")
      (if optTruthy (part.getField "thoughtSignature") then
        some (Json.obj [("thoughtSignature", jsGet (some part) "thoughtSignature")])
      else none),
     StreamEvent.tool_call_delta (jsGet (some fc) "name")
       (jsOr (fc.getField "args") (Json.obj []))]
  else if optTruthy (part.getField "text") then
    if optTruthy (part.getField "thought") then
      [StreamEvent.reasoning (jsGet (some part) "text")]
    else
      [StreamEvent.chunk (jsGet (some part) "text")]
  else []

/-- `GoogleAdapter.parseSSELine` (google-adapter.ts, lines 238-283).
As for the Anthropic adapter, the only fallible step is `JSON.parse`;
a truthy non-array `parts` would make `for..of` throw inside the same
`try`, which also yields `[]` — covered by the catch-all branch. -/
def parseSSELine (parse : String → Option Json) (jsonLine : String) : List StreamEvent :=
  match parse jsonLine with
  | none => []
  | some parsed =>
    let parts? :=
      ((((parsed.getField "candidates").bind (fun c => c.getIdx 0)).bind
        (fun c => c.getField "content")).bind (fun c => c.getField "parts"))
    match parts? with
    | some (Json.arr parts) => parts.foldl (fun acc part => acc ++ partEvents part) []
    | _ => []

/-- `GoogleAdapter.buildTitleRequest` (google-adapter.ts, lines 285-298);
`normalizeBaseUrl` (url-utils.ts, not in the provided sources) is passed
in as a parameter.  Note: the body carries no thinking configuration of
any kind — only `generationConfig.maxOutputTokens`. -/
def buildTitleRequest (normalizeBaseUrl : String → String)
    (input : TitleRequestInput) : ProviderRequest :=
  let url := normalizeBaseUrl input.baseUrl
  { url := url ++ "/v1beta/models/" ++ input.modelId ++ ":generateContent?key=" ++ input.apiKey
    headers := [("content-type", "application/json")]
    body := Json.obj
      [("contents", Json.arr
         [Json.obj [("role", Json.str "user"),
                    ("parts", Json.arr [Json.obj [("text", Json.str input.prompt)]])]]),
       ("generationConfig", Json.obj [("maxOutputTokens", Json.num 50)])] }

end GoogleAdapter

/-! ## Chat service data model (apps/electron chat-service.ts) -/

/-- Message roles of `ChatMessage` (`@proma/shared`). -/
inductive Role where
  | user
  | assistant
  | system
deriving DecidableEq

/-- `ChatMessage` as used by `chat-service.ts` (attachments and
timestamps are not modelled: no claim depends on them). -/
structure ChatMessage where
  id : String
  role : Role
  content : String
  reasoning : Option String := none
  model : Option String := none
  stopped : Bool := false
deriving DecidableEq

/-- The `contextLength` input: a JavaScript `number`, the literal
string `'infinite'`, or `undefined`. -/
inductive ContextLength where
  | num (n : Int)
  | infinite
  | undef
deriving DecidableEq

/-! ## History Filter (`filterHistory`, chat-service.ts lines 186-227) -/

/-- JavaScript `String.prototype.trim()`: strip leading and trailing
whitespace.  Defined structurally over the character list (rather than
through `String.trim`, whose `Substring` internals do not reduce in the
kernel) so that concrete runs evaluate. -/
def jsTrim (s : String) : String :=
  (((s.data.dropWhile Char.isWhitespace).reverse.dropWhile Char.isWhitespace).reverse).asString

/-- Step 1 of `filterHistory` (lines 191-194): drop assistant messages
whose content is empty after trimming. -/
def emptyAssistantFiltered (messageHistory : List ChatMessage) : List ChatMessage :=
  messageHistory.filter
    (fun msg => !(msg.role == Role.assistant && jsTrim msg.content == ""))

/-- Divider trimming (lines 196-203): with a non-empty divider list,
look up the first position of the *last* divider id in the
already-filtered sequence (`findIndex`) and keep only the messages
strictly after it; an absent id — and an empty/absent divider list —
leaves the sequence unchanged. -/
def applyDividers (filtered : List ChatMessage) (contextDividers : List String) :
    List ChatMessage :=
  match contextDividers.getLast? with
  | none => filtered
  | some lastDividerId =>
    match filtered.findIdx? (fun msg => msg.id == lastDividerId) with
    | some dividerIndex => filtered.drop (dividerIndex + 1)
    | none => filtered

/-- The backward round-collecting walk (lines 210-221), expressed on the
reversed list: every visited message is collected (`unshift` happens
before the round check), a round ends at each user message, and the walk
stops once `roundCount >= contextLength`. -/
def collectRounds (contextLength : Int) : List ChatMessage → Int → List ChatMessage
  | [], _ => []
  | msg :: rest, roundCount =>
    if msg.role == Role.user then
      if contextLength ≤ roundCount + 1 then [msg]
      else msg :: collectRounds contextLength rest (roundCount + 1)
    else msg :: collectRounds contextLength rest roundCount

/-- `filterHistory` (lines 186-227): empty-assistant filtering, divider
trimming, then round-count trimming for a finite non-negative numeric
policy; `'infinite'`, `undefined`, and (per the `contextLength >= 0`
guard) negative numbers keep the divider-trimmed sequence whole. -/
def filterHistory (messageHistory : List ChatMessage) (contextDividers : List String)
    (contextLength : ContextLength) : List ChatMessage :=
  let filtered := applyDividers (emptyAssistantFiltered messageHistory) contextDividers
  match contextLength with
  | ContextLength.num n =>
    if 0 ≤ n then
      if n = 0 then []
      else (collectRounds n filtered.reverse 0).reverse
    else filtered
  | ContextLength.infinite => filtered
  | ContextLength.undef => filtered

/-- Number of user-role messages in a history — the spec's round count. -/
def countUser (l : List ChatMessage) : Nat :=
  l.countP (fun msg => msg.role == Role.user)

/-! ## Memory tool execution (chat-service.ts lines 234-275) -/

/-- A `ToolCall` as assembled by the stream reader (`arguments` kept as
an opaque payload: no claim inspects it). -/
structure SToolCall where
  id : String
  name : String
  args : String
deriving DecidableEq

/-- A `ToolResult`; the source leaves `isError` undefined on success,
which every consumer treats as `false`. -/
structure SToolResult where
  toolCallId : String
  content : String
  isError : Bool := false
deriving DecidableEq

/-- `ContinuationMessage` (`@proma/core`): one round's assistant turn or
the following tool-results turn. -/
inductive ContMessage where
  | assistant (content : String) (toolCalls : List SToolCall)
  | tool (results : List SToolResult)
deriving DecidableEq

/-- Outcomes of the external memory backend (`searchMemory` composed
with `formatSearchResult`, and `addMemory`): a returned content string /
unit, or a thrown error message. -/
structure MemOracle where
  searchMemory : SToolCall → Except String String
  addMemory : SToolCall → Except String Unit

/-- `executeMemoryToolCall` (chat-service.ts lines 234-275): dispatch on
the tool name, convert a thrown backend error into an error-tagged
result, and answer an unknown name with an error-tagged `Unknown tool`
result.  Always returns a result carrying the call's id. -/
def executeMemoryToolCall (oracle : MemOracle) (toolCall : SToolCall) : SToolResult :=
  if toolCall.name == "recall_memory" then
    match oracle.searchMemory toolCall with
    | Except.ok content => { toolCallId := toolCall.id, content := content }
    | Except.error msg =>
      { toolCallId := toolCall.id, content := "Tool execution failed: " ++ msg, isError := true }
  else if toolCall.name == "add_memory" then
    match oracle.addMemory toolCall with
    | Except.ok _ => { toolCallId := toolCall.id, content := "Memory stored successfully." }
    | Except.error msg =>
      { toolCallId := toolCall.id, content := "Tool execution failed: " ++ msg, isError := true }
  else
    { toolCallId := toolCall.id, content := "Unknown tool: " ++ toolCall.name, isError := true }

/-! ## The `sendMessage` run model -/

/-- Events forwarded live from inside one `streamSSE` call by the
`onEvent` callback (chat-service.ts lines 391-415). -/
inductive MidEvt where
  | chunk (delta : String)
  | reasoning (delta : String)
  | toolCallStart (toolName toolCallId : String)
deriving DecidableEq

/-- Events sent to the renderer (`webContents.send`) during one
`sendMessage` run. -/
inductive SentEvt where
  | streamChunk (delta : String)
  | streamReasoning (delta : String)
  | toolActivityStart (toolName toolCallId : String)
  | toolActivityResult (toolName toolCallId content : String) (isError : Bool)
  | streamComplete (messageId : Option String)
  | streamError (error : String)
deriving DecidableEq

/-- Translation of a mid-stream event to the IPC event it triggers. -/
def midToSent : MidEvt → SentEvt
  | MidEvt.chunk d => SentEvt.streamChunk d
  | MidEvt.reasoning d => SentEvt.streamReasoning d
  | MidEvt.toolCallStart n i => SentEvt.toolActivityStart n i

/-- The aggregate returned by one `streamSSE` call (its `reasoning`
component is destructured but unused by `sendMessage`, so omitted). -/
structure SStreamResult where
  content : String
  toolCalls : List SToolCall
  stopReason : Option String
deriving DecidableEq

/-- Outcome of one `streamSSE` invocation: either a returned aggregate,
or a rejection (`thrown`) — in both cases together with the events the
callback delivered before the call ended.  For a rejection, `aborted`
records `controller.signal.aborted` as observed by the `catch` block. -/
inductive RoundOutcome where
  | ok (events : List MidEvt) (result : SStreamResult)
  | thrown (events : List MidEvt) (aborted : Bool) (errMsg : String)

/-- The environment of one `sendMessage` run: outcomes of every external
collaborator.  `rounds k` is the outcome of the `k`-th `streamSSE` call
(`k = 1, 2, …`); `ids n` is the `n`-th `randomUUID()` draw. -/
structure ChatEnv where
  channelFound : Bool
  decryptOk : Bool
  rounds : Nat → RoundOutcome
  oracle : MemOracle
  ids : Nat → String

/-- `MAX_TOOL_ROUNDS` (chat-service.ts line 86). -/
def MAX_TOOL_ROUNDS : Nat := 5

/-- Content accumulation performed by the `onEvent` callback:
`accumulatedContent += event.delta` on every `chunk` event. -/
def accumulateContent : List MidEvt → String → String
  | [], acc => acc
  | MidEvt.chunk d :: rest, acc => accumulateContent rest (acc ++ d)
  | _ :: rest, acc => accumulateContent rest acc

/-- Reasoning accumulation performed by the `onEvent` callback. -/
def accumulateReasoning : List MidEvt → String → String
  | [], acc => acc
  | MidEvt.reasoning d :: rest, acc => accumulateReasoning rest (acc ++ d)
  | _ :: rest, acc => accumulateReasoning rest acc

/-- The per-round tool-execution loop (chat-service.ts lines 423-442):
only calls named `recall_memory` or `add_memory` are dispatched (and
produce a result plus a tool-activity IPC event); a call with any other
name produces nothing. -/
def executeToolRound (oracle : MemOracle) : List SToolCall → List SToolResult × List SentEvt
  | [] => ([], [])
  | tc :: rest =>
    let tail := executeToolRound oracle rest
    if tc.name == "recall_memory" || tc.name == "add_memory" then
      let result := executeMemoryToolCall oracle tc
      (result :: tail.1,
       SentEvt.toolActivityResult tc.name tc.id result.content result.isError :: tail.2)
    else tail

/-- How the `while` loop ended: normal exit, or a `streamSSE` rejection
propagating to the `catch` block. -/
inductive LoopEnd where
  | finished
  | raised (aborted : Bool) (errMsg : String)
deriving DecidableEq

/-- Mutable state of the tool-continuation loop. -/
structure LoopState where
  events : List SentEvt
  accContent : String
  accReasoning : String
  contMsgs : List ContMessage
  streamCalls : Nat

/-- The tool-continuation `while` loop (chat-service.ts lines 369-452).
The `while (round < MAX_TOOL_ROUNDS)` guard is structural: the fuel
argument is `MAX_TOOL_ROUNDS - round`.  Each iteration performs one
`streamSSE` call; the loop exits when the stream returns no tool calls
or a non-`tool_use` stop reason, when the round bound is exhausted, or
when the stream rejects (handled by the enclosing `catch`). -/
def runRounds (env : ChatEnv) : Nat → Nat → LoopState → LoopState × LoopEnd
  | 0, _, st => (st, LoopEnd.finished)
  | fuel + 1, round, st =>
    match env.rounds (round + 1) with
    | RoundOutcome.thrown evts aborted errMsg =>
      ({ events := st.events ++ evts.map midToSent,
         accContent := accumulateContent evts st.accContent,
         accReasoning := accumulateReasoning evts st.accReasoning,
         contMsgs := st.contMsgs,
         streamCalls := st.streamCalls + 1 }, LoopEnd.raised aborted errMsg)
    | RoundOutcome.ok evts result =>
      let st' : LoopState :=
        { events := st.events ++ evts.map midToSent,
          accContent := accumulateContent evts st.accContent,
          accReasoning := accumulateReasoning evts st.accReasoning,
          contMsgs := st.contMsgs,
          streamCalls := st.streamCalls + 1 }
      if result.toolCalls = [] ∨ result.stopReason ≠ some "tool_use" then
        (st', LoopEnd.finished)
      else
        let tr := executeToolRound env.oracle result.toolCalls
        runRounds env fuel (round + 1)
          { st' with
            events := st'.events ++ tr.2,
            contMsgs := st'.contMsgs ++
              [ContMessage.assistant result.content result.toolCalls,
               ContMessage.tool tr.1] }

/-- Initial loop state: the accumulators start empty (chat-service.ts
lines 343-344 and 366-367). -/
def initLoopState : LoopState :=
  { events := [], accContent := "", accReasoning := "", contMsgs := [], streamCalls := 0 }

/-- Classification of how a `sendMessage` run ended. -/
inductive RunEnd where
  | earlyError
  | completed
  | cancelled
  | failed
deriving DecidableEq

/-- Observable outcome of one `sendMessage` run. -/
structure RunOut where
  events : List SentEvt
  appended : List ChatMessage
  contMsgs : List ContMessage
  registry : List String
  accContent : String
  streamCalls : Nat
  ended : RunEnd

/-- `activeControllers.set conversationId`: key set of the map. -/
def insertReg (registry : List String) (conversationId : String) : List String :=
  if conversationId ∈ registry then registry else registry ++ [conversationId]

/-- `activeControllers.delete conversationId` in the `finally` block. -/
def removeReg (registry : List String) (conversationId : String) : List String :=
  registry.filter (fun id => id ≠ conversationId)

/-- `sendMessage` (chat-service.ts lines 287-530) as a pure run model.

Mirrored control flow: channel-not-found and decryption-failure early
returns emit a single error event and touch neither the history store
nor the registry; otherwise the user message is appended, the controller
is registered, the tool-continuation loop runs, and the terminal section
executes: on normal loop exit (line 454) the assistant message is saved
iff the accumulated content is non-empty after `trim()` and the
`complete` event carries the message id iff it was saved; in the `catch`
block with a fired abort signal (line 484) the partial message is saved
iff the accumulated content is non-empty (no trim) with `stopped: true`;
otherwise the error message is forwarded as the terminal `error` event.
The `finally` block always removes the registry entry.

Not modelled (irrelevant to the claims): history read/filter/enrichment
feeding the request builder, the swallowed `updateConversationMeta`
bookkeeping, and proxy/adapter resolution — all folded into the
per-round stream oracle. -/
def sendMessage (env : ChatEnv) (conversationId userMessage modelId : String)
    (registry₀ : List String) : RunOut :=
  if env.channelFound = false then
    { events := [SentEvt.streamError "渠道不存在"], appended := [], contMsgs := [],
      registry := registry₀, accContent := "", streamCalls := 0, ended := RunEnd.earlyError }
  else if env.decryptOk = false then
    { events := [SentEvt.streamError "解密 API Key 失败"], appended := [], contMsgs := [],
      registry := registry₀, accContent := "", streamCalls := 0, ended := RunEnd.earlyError }
  else
    let userMsg : ChatMessage := { id := env.ids 0, role := Role.user, content := userMessage }
    let reg₁ := insertReg registry₀ conversationId
    let loop := runRounds env MAX_TOOL_ROUNDS 0 initLoopState
    let st := loop.1
    let regFinal := removeReg reg₁ conversationId
    let assistantMsgId := env.ids 1
    match loop.2 with
    | LoopEnd.finished =>
      if jsTrim st.accContent = "" then
        { events := st.events ++ [SentEvt.streamComplete none],
          appended := [userMsg], contMsgs := st.contMsgs, registry := regFinal,
          accContent := st.accContent, streamCalls := st.streamCalls, ended := RunEnd.completed }
      else
        { events := st.events ++ [SentEvt.streamComplete (some assistantMsgId)],
          appended := [userMsg,
            { id := assistantMsgId, role := Role.assistant, content := st.accContent,
              reasoning := if st.accReasoning = "" then none else some st.accReasoning,
              model := some modelId }],
          contMsgs := st.contMsgs, registry := regFinal,
          accContent := st.accContent, streamCalls := st.streamCalls, ended := RunEnd.completed }
    | LoopEnd.raised true _ =>
      if st.accContent = "" then
        { events := st.events ++ [SentEvt.streamComplete none],
          appended := [userMsg], contMsgs := st.contMsgs, registry := regFinal,
          accContent := st.accContent, streamCalls := st.streamCalls, ended := RunEnd.cancelled }
      else
        { events := st.events ++ [SentEvt.streamComplete (some assistantMsgId)],
          appended := [userMsg,
            { id := assistantMsgId, role := Role.assistant, content := st.accContent,
              reasoning := if st.accReasoning = "" then none else some st.accReasoning,
              model := some modelId, stopped := true }],
          contMsgs := st.contMsgs, registry := regFinal,
          accContent := st.accContent, streamCalls := st.streamCalls, ended := RunEnd.cancelled }
    | LoopEnd.raised false errMsg =>
      { events := st.events ++ [SentEvt.streamError errMsg],
        appended := [userMsg], contMsgs := st.contMsgs, registry := regFinal,
        accContent := st.accContent, streamCalls := st.streamCalls, ended := RunEnd.failed }

/-- The assistant messages a run appended to the history store. -/
def assistantMessages (run : RunOut) : List ChatMessage :=
  run.appended.filter (fun msg => msg.role == Role.assistant)

/-- Terminal events of the exposed IPC interface. -/
def isTerminal : SentEvt → Bool
  | SentEvt.streamComplete _ => true
  | SentEvt.streamError _ => true
  | _ => false

/-! ## Concrete inputs and environments used by witnesses and counterexamples -/

/-- A stream outcome that forces the loop to continue: tool calls were
returned under the `tool_use` stop reason. -/
def keepsLooping : RoundOutcome → Prop
  | RoundOutcome.ok _ result =>
    result.toolCalls ≠ [] ∧ result.stopReason = some "tool_use"
  | RoundOutcome.thrown _ _ _ => False

/-- A concrete title-request input used to exhibit the Google adapter's
title-request body. -/
def titleInputC8 : TitleRequestInput :=
  { baseUrl := "https://example.com", apiKey := "k", modelId := "gemini-2.5-pro",
    prompt := "hello" }

/-- A small concrete history for the C5 witness: two rounds, one
empty-content assistant message. -/
def historyC5 : List ChatMessage :=
  [{ id := "m1", role := Role.user, content := "first" },
   { id := "m2", role := Role.assistant, content := "  " },
   { id := "m3", role := Role.assistant, content := "answer one" },
   { id := "m4", role := Role.user, content := "second" },
   { id := "m5", role := Role.assistant, content := "answer two" }]

/-- A memory-backend oracle that always succeeds. -/
def trivialOracle : MemOracle :=
  { searchMemory := fun _ => Except.ok "found", addMemory := fun _ => Except.ok () }

/-- An environment whose first stream returns a single tool call with
the unknown name `web_search` under a `tool_use` stop reason. -/
def unknownToolEnv : ChatEnv :=
  { channelFound := true
    decryptOk := true
    rounds := fun k =>
      if k = 1 then
        RoundOutcome.ok [MidEvt.chunk "Let me look."]
          { content := "Let me look."
            toolCalls := [{ id := "call-1", name := "web_search", args := "q" }]
            stopReason := some "tool_use" }
      else
        RoundOutcome.ok [] { content := "", toolCalls := [], stopReason := some "end_turn" }
    oracle := trivialOracle
    ids := fun n => toString n }

/-- A plain successful single-round environment. -/
def simpleEnv : ChatEnv :=
  { channelFound := true
    decryptOk := true
    rounds := fun _ =>
      RoundOutcome.ok [MidEvt.chunk "Hi!"]
        { content := "Hi!", toolCalls := [], stopReason := some "end_turn" }
    oracle := trivialOracle
    ids := fun n => toString n }

/-- An environment whose every stream returns one `recall_memory` call
under `tool_use`, forever. -/
def loopingEnv : ChatEnv :=
  { channelFound := true
    decryptOk := true
    rounds := fun _ =>
      RoundOutcome.ok [MidEvt.chunk "a"]
        { content := "a"
          toolCalls := [{ id := "t1", name := "recall_memory", args := "q" }]
          stopReason := some "tool_use" }
    oracle := trivialOracle
    ids := fun n => toString n }

/-- A cancellation arriving after the partial content `"Hello, wor"`
has streamed. -/
def helloCancelEnv : ChatEnv :=
  { channelFound := true
    decryptOk := true
    rounds := fun _ => RoundOutcome.thrown [MidEvt.chunk "Hello, wor"] true "aborted"
    oracle := trivialOracle
    ids := fun n => toString n }

/-- A run that completes normally with a whitespace-only accumulation. -/
def wsNormalEnv : ChatEnv :=
  { channelFound := true
    decryptOk := true
    rounds := fun _ =>
      RoundOutcome.ok [MidEvt.chunk " "]
        { content := " ", toolCalls := [], stopReason := some "end_turn" }
    oracle := trivialOracle
    ids := fun n => toString n }

/-- A run cancelled after the same whitespace-only accumulation. -/
def wsCancelEnv : ChatEnv :=
  { channelFound := true
    decryptOk := true
    rounds := fun _ => RoundOutcome.thrown [MidEvt.chunk " "] true "aborted"
    oracle := trivialOracle
    ids := fun n => toString n }

/-! ## Claim C7 — fail-soft frame parsing -/

/-- C7 (confirmed): For every input string and every behaviour of the
host JSON parser, both adapters' `parseSSELine` are total Lean functions
(they cannot throw: every field access on the untyped parsed value is
`Option`-guarded above), and whenever the parse fails — non-JSON text,
truncated JSON — they return the empty event list instead of aborting
the stream.  JSON of an unexpected shape falls under the `some` case of
the abstract parser, over which the statement also quantifies. -/
theorem parseSSELine_parse_failure_returns_empty
    (parse : String → Option Json) (jsonLine : String) (h : parse jsonLine = none) :
    AnthropicAdapter.parseSSELine parse jsonLine = [] ∧
    GoogleAdapter.parseSSELine parse jsonLine = [] := by
  refine ⟨?_, ?_⟩
  · simp only [AnthropicAdapter.parseSSELine, h]
  · simp only [GoogleAdapter.parseSSELine, h]

/-- Witness for C7 at a concrete malformed line and the parser behaviour
`JSON.parse` has on it (a throw, i.e. `none`). -/
theorem parseSSELine_parse_failure_returns_empty_witness :
    AnthropicAdapter.parseSSELine (fun _ => none) "not json" = [] ∧
    GoogleAdapter.parseSSELine (fun _ => none) "not json" = [] :=
  parseSSELine_parse_failure_returns_empty (fun _ => none) "not json" rfl

/-! ## Claim C8 — title requests and extended reasoning -/

/-- C8 counterexample: the Google adapter's `buildTitleRequest` does
*not* explicitly disable thinking — its wire body carries no
`generationConfig.thinkingConfig` and no `thinking` field at all; the
`generationConfig` consists solely of `maxOutputTokens`.  (On the stream
path the same adapter documents that omitting `thinkingConfig` leaves
the model's default behaviour.)  This refutes the claim for one of the
two adapters it quantifies over. -/
theorem googleBuildTitleRequest_no_explicit_disable :
    ((GoogleAdapter.buildTitleRequest (fun s => s) titleInputC8).body.getField
        "generationConfig").bind (fun g => g.getField "thinkingConfig") = none ∧
    (GoogleAdapter.buildTitleRequest (fun s => s) titleInputC8).body.getField "thinking"
      = none ∧
    (GoogleAdapter.buildTitleRequest (fun s => s) titleInputC8).body.getField
        "generationConfig" = some (Json.obj [("maxOutputTokens", Json.num 50)]) :=
  ⟨rfl, rfl, rfl⟩

/-- C8 amended (proved): for every title-request input — independently of
the chat reasoning setting, which is not even part of the title-request
input — the Anthropic adapter's title request explicitly disables
extended thinking (`thinking: type disabled`), while the Google
adapter's title request merely omits any thinking configuration: its
`generationConfig` is exactly `maxOutputTokens: 50` and no `thinking`
key exists. -/
theorem buildTitleRequest_thinking_amended (normA normG : String → String)
    (input : TitleRequestInput) :
    (AnthropicAdapter.buildTitleRequest normA input).body.getField "thinking"
      = some (Json.obj [("type", Json.str "disabled")]) ∧
    (GoogleAdapter.buildTitleRequest normG input).body.getField "generationConfig"
      = some (Json.obj [("maxOutputTokens", Json.num 50)]) ∧
    (GoogleAdapter.buildTitleRequest normG input).body.getField "thinking" = none :=
  ⟨rfl, rfl, rfl⟩

/-! ## Claim C3 — tool dispatch and unknown tool names -/

/-- `executeMemoryToolCall` always answers with the id of the call it
was given. -/
theorem executeMemoryToolCall_toolCallId (oracle : MemOracle) (tc : SToolCall) :
    (executeMemoryToolCall oracle tc).toolCallId = tc.id := by
  unfold executeMemoryToolCall
  split
  · cases oracle.searchMemory tc <;> rfl
  · split
    · cases oracle.addMemory tc <;> rfl
    · rfl

/-- The results produced by one round's tool-execution loop are exactly
the image of the *known-named* calls under `executeMemoryToolCall`. -/
theorem executeToolRound_fst (oracle : MemOracle) (toolCalls : List SToolCall) :
    (executeToolRound oracle toolCalls).1
      = (toolCalls.filter
          (fun tc => tc.name == "recall_memory" || tc.name == "add_memory")).map
          (executeMemoryToolCall oracle) := by
  induction toolCalls with
  | nil => rfl
  | cons tc rest ih =>
    by_cases h : (tc.name == "recall_memory" || tc.name == "add_memory") = true
    · simp [executeToolRound, h, List.filter_cons, ih]
    · simp [executeToolRound, h, List.filter_cons, ih]

/-- C3 counterexample: in the run above, the stream's `tool_use` round
returned the call `call-1` (name `web_search`), yet the tool-turn
continuation message built for the next round contains *no* `ToolResult`
at all — the unknown-named call is silently dropped by the
`recall_memory`/`add_memory` guard in `sendMessage`, and the
error-tagged `Unknown tool` branch of `executeMemoryToolCall` is never
reached from `sendMessage`.  This refutes the claim as stated. -/
theorem sendMessage_unknown_tool_dropped :
    (sendMessage unknownToolEnv "conv" "hi" "model-x" []).contMsgs
      = [ContMessage.assistant "Let me look."
           [{ id := "call-1", name := "web_search", args := "q" }],
         ContMessage.tool []] := by
  decide

/-- C3 amended (proved): every returned tool call whose name matches a
known tool (`recall_memory` or `add_memory`) is dispatched to
`executeMemoryToolCall` and yields exactly one `ToolResult` carrying its
call id, in order — including error-tagged results when the backend
throws; tool calls with any other name are silently dropped: no
`ToolResult` is produced for them. -/
theorem executeToolRound_known_dispatched (oracle : MemOracle)
    (toolCalls : List SToolCall) :
    (executeToolRound oracle toolCalls).1
      = (toolCalls.filter
          (fun tc => tc.name == "recall_memory" || tc.name == "add_memory")).map
          (executeMemoryToolCall oracle) ∧
    ((executeToolRound oracle toolCalls).1).map (fun r => r.toolCallId)
      = (toolCalls.filter
          (fun tc => tc.name == "recall_memory" || tc.name == "add_memory")).map
          (fun tc => tc.id) := by
  refine ⟨executeToolRound_fst oracle toolCalls, ?_⟩
  rw [executeToolRound_fst oracle toolCalls, List.map_map]
  exact List.map_congr_left (fun tc _ => executeMemoryToolCall_toolCallId oracle tc)

/-! ## Claims C5 and C6 — the History Filter -/

/-- The backward walk always collects a prefix of the reversed list (it
stops early but never skips). -/
theorem collectRounds_eq_take (n : Int) (rev : List ChatMessage) :
    ∀ cnt : Int, ∃ k, collectRounds n rev cnt = rev.take k := by
  induction rev with
  | nil => intro cnt; exact ⟨0, rfl⟩
  | cons msg rest ih =>
    intro cnt
    by_cases hu : (msg.role == Role.user) = true
    · by_cases hb : n ≤ cnt + 1
      · exact ⟨1, by simp [collectRounds, hu, hb]⟩
      · obtain ⟨k, hk⟩ := ih (cnt + 1)
        exact ⟨k + 1, by simp [collectRounds, hu, hb, hk]⟩
    · obtain ⟨k, hk⟩ := ih cnt
      exact ⟨k + 1, by simp [collectRounds, hu, hk]⟩

/-- The backward walk collects exactly `min (n - cnt) (countUser rev)`
user messages when it starts with `cnt` rounds already counted. -/
theorem collectRounds_countUser (n : Int) (rev : List ChatMessage) :
    ∀ cnt : Int, cnt < n →
      (countUser (collectRounds n rev cnt) : Int) = min (n - cnt) (countUser rev) := by
  induction rev with
  | nil =>
    intro cnt hcnt
    simp only [collectRounds, countUser, List.countP_nil]
    omega
  | cons msg rest ih =>
    intro cnt hcnt
    by_cases hu : (msg.role == Role.user) = true
    · by_cases hb : n ≤ cnt + 1
      · have hval : collectRounds n (msg :: rest) cnt = [msg] := by
          simp [collectRounds, hu, hb]
        have h1 : countUser [msg] = 1 := by simp [countUser, List.countP_cons, hu]
        have h2 : countUser (msg :: rest) = countUser rest + 1 := by
          simp [countUser, List.countP_cons, hu]
        rw [hval, h1, h2]
        omega
      · have hval : collectRounds n (msg :: rest) cnt
            = msg :: collectRounds n rest (cnt + 1) := by
          simp [collectRounds, hu, hb]
        have h2 : countUser (msg :: rest) = countUser rest + 1 := by
          simp [countUser, List.countP_cons, hu]
        have h3 : countUser (msg :: collectRounds n rest (cnt + 1))
            = countUser (collectRounds n rest (cnt + 1)) + 1 := by
          simp [countUser, List.countP_cons, hu]
        have hih := ih (cnt + 1) (by omega)
        rw [hval, h3, h2]
        omega
    · have hval : collectRounds n (msg :: rest) cnt
          = msg :: collectRounds n rest cnt := by
        simp [collectRounds, hu]
      have h2 : countUser (msg :: rest) = countUser rest := by
        simp [countUser, List.countP_cons, hu]
      have h3 : countUser (msg :: collectRounds n rest cnt)
          = countUser (collectRounds n rest cnt) := by
        simp [countUser, List.countP_cons, hu]
      have hih := ih cnt hcnt
      rw [hval, h3, h2]
      omega

/-- Reversal preserves the user-message count. -/
theorem countUser_reverse (l : List ChatMessage) : countUser l.reverse = countUser l := by
  simp [countUser, List.countP_reverse]

/-- The reversal of a prefix of the reversed list is a suffix. -/
theorem reverse_take_reverse_suffix (l : List ChatMessage) (k : Nat) :
    ((l.reverse.take k).reverse).IsSuffix l := by
  refine ⟨(l.reverse.drop k).reverse, ?_⟩
  rw [← List.reverse_append, List.take_append_drop, List.reverse_reverse]

/-- C5 (confirmed): for every history, divider list and numeric policy
`n`, the History Filter returns a suffix of the divider-trimmed,
empty-assistant-filtered history; for non-negative `n` that suffix
contains exactly `min n (number of user messages present)` rounds, a
round boundary being an encountered user-role message; `n = 0` yields
`[]`; the `'infinite'` and `undefined` policies return the
divider-trimmed, empty-assistant-filtered history unchanged (hence also
a suffix). -/
theorem filterHistory_round_policy (H : List ChatMessage) (dividers : List String)
    (n : Int) :
    (filterHistory H dividers (ContextLength.num n)).IsSuffix
      (applyDividers (emptyAssistantFiltered H) dividers) ∧
    (0 ≤ n → (countUser (filterHistory H dividers (ContextLength.num n)) : Int)
      = min n (countUser (applyDividers (emptyAssistantFiltered H) dividers))) ∧
    (n = 0 → filterHistory H dividers (ContextLength.num n) = []) ∧
    filterHistory H dividers ContextLength.infinite
      = applyDividers (emptyAssistantFiltered H) dividers ∧
    filterHistory H dividers ContextLength.undef
      = applyDividers (emptyAssistantFiltered H) dividers := by
  by_cases h0 : 0 ≤ n
  · by_cases hz : n = 0
    · subst hz
      have hres : filterHistory H dividers (ContextLength.num 0) = [] := by
        simp [filterHistory]
      refine ⟨?_, ?_, fun _ => hres, rfl, rfl⟩
      · rw [hres]
        exact List.nil_suffix
      · intro _
        have h00 : countUser ([] : List ChatMessage) = 0 := rfl
        rw [hres, h00]
        omega
    · have hres : filterHistory H dividers (ContextLength.num n)
          = (collectRounds n
              (applyDividers (emptyAssistantFiltered H) dividers).reverse 0).reverse := by
        simp [filterHistory, h0, hz]
      refine ⟨?_, ?_, fun h => absurd h hz, rfl, rfl⟩
      · rw [hres]
        obtain ⟨k, hk⟩ :=
          collectRounds_eq_take n (applyDividers (emptyAssistantFiltered H) dividers).reverse 0
        rw [hk]
        exact reverse_take_reverse_suffix _ k
      · intro _
        rw [hres, countUser_reverse]
        have hmain := collectRounds_countUser n
          (applyDividers (emptyAssistantFiltered H) dividers).reverse 0 (by omega)
        rw [countUser_reverse] at hmain
        simpa using hmain
  · have hres : filterHistory H dividers (ContextLength.num n)
        = applyDividers (emptyAssistantFiltered H) dividers := by
      simp [filterHistory, h0]
    refine ⟨?_, fun h => absurd h h0,
      fun h => absurd (show (0 : Int) ≤ n by omega) h0, rfl, rfl⟩
    rw [hres]

/-- Witness for C5: the zero policy yields `[]`, and the one-round
policy keeps exactly `min 1 2 = 1` round of the filtered history. -/
theorem filterHistory_round_policy_witness :
    filterHistory historyC5 [] (ContextLength.num 0) = [] ∧
    (countUser (filterHistory historyC5 [] (ContextLength.num 1)) : Int)
      = min 1 (countUser (applyDividers (emptyAssistantFiltered historyC5) [])) :=
  ⟨(filterHistory_round_policy historyC5 [] 0).2.2.1 rfl,
   (filterHistory_round_policy historyC5 [] 1).2.1 (by norm_num)⟩

/-- C6 (confirmed): with a non-empty divider list (last id `d`), the
History Filter — shown here before any round-count trimming, i.e. under
the `'infinite'` policy, which returns step 2's result unchanged — keeps
exactly the messages strictly after the position at which `d` is found
in the empty-assistant-filtered sequence, and returns that sequence
whole when `d` does not occur in it. -/
theorem filterHistory_divider_trim (H : List ChatMessage) (dividers : List String)
    (d : String) (hd : dividers.getLast? = some d) :
    (∀ i, (emptyAssistantFiltered H).findIdx? (fun msg => msg.id == d) = some i →
      filterHistory H dividers ContextLength.infinite
        = (emptyAssistantFiltered H).drop (i + 1)) ∧
    ((emptyAssistantFiltered H).findIdx? (fun msg => msg.id == d) = none →
      filterHistory H dividers ContextLength.infinite = emptyAssistantFiltered H) := by
  constructor
  · intro i hi
    simp [filterHistory, applyDividers, hd, hi]
  · intro hi
    simp [filterHistory, applyDividers, hd, hi]

/-- Witness for C6: a divider id sitting at index 1 of the filtered
sequence trims everything up to and including it. -/
theorem filterHistory_divider_trim_witness :
    filterHistory historyC5 ["m0", "m3"] ContextLength.infinite
      = [{ id := "m4", role := Role.user, content := "second" },
         { id := "m5", role := Role.assistant, content := "answer two" }] := by
  have h := (filterHistory_divider_trim historyC5 ["m0", "m3"] "m3" rfl).1 1 (by decide)
  rw [h]
  decide

/-! ## Claim C2 — exactly one terminal event, emitted last -/

/-- Events forwarded live from inside a stream are never terminal. -/
theorem midToSent_not_terminal (e : MidEvt) : isTerminal (midToSent e) = false := by
  cases e <;> rfl

/-- Tool-activity result events are never terminal. -/
theorem executeToolRound_events_not_terminal (oracle : MemOracle)
    (toolCalls : List SToolCall) :
    ∀ e ∈ (executeToolRound oracle toolCalls).2, isTerminal e = false := by
  induction toolCalls with
  | nil => intro e he; simp [executeToolRound] at he
  | cons tc rest ih =>
    intro e he
    by_cases h : (tc.name == "recall_memory" || tc.name == "add_memory") = true
    · simp only [executeToolRound, h, if_true] at he
      rcases List.mem_cons.mp he with rfl | hmem
      · rfl
      · exact ih e hmem
    · simp only [executeToolRound, h, Bool.false_eq_true, if_false] at he
      exact ih e he

/-- The tool-continuation loop only ever emits non-terminal events. -/
theorem runRounds_events_not_terminal (env : ChatEnv) :
    ∀ (fuel round : Nat) (st : LoopState),
      (∀ e ∈ st.events, isTerminal e = false) →
      ∀ e ∈ ((runRounds env fuel round st).1).events, isTerminal e = false := by
  intro fuel
  induction fuel with
  | zero => intro round st hst; exact hst
  | succ fuel ih =>
    intro round st hst e he
    cases hr : env.rounds (round + 1) with
    | thrown evts ab msg =>
      simp only [runRounds, hr, List.mem_append] at he
      rcases he with he | he
      · exact hst e he
      · obtain ⟨me, _, rfl⟩ := List.mem_map.mp he
        exact midToSent_not_terminal me
    | ok evts result =>
      by_cases hcond : result.toolCalls = [] ∨ result.stopReason ≠ some "tool_use"
      · simp only [runRounds, hr, if_pos hcond, List.mem_append] at he
        rcases he with he | he
        · exact hst e he
        · obtain ⟨me, _, rfl⟩ := List.mem_map.mp he
          exact midToSent_not_terminal me
      · simp only [runRounds, hr, if_neg hcond] at he
        refine ih (round + 1) _ ?_ e he
        intro e' he'
        simp only [List.mem_append] at he'
        rcases he' with (he' | he') | he'
        · exact hst e' he'
        · obtain ⟨me, _, rfl⟩ := List.mem_map.mp he'
          exact midToSent_not_terminal me
        · exact executeToolRound_events_not_terminal env.oracle result.toolCalls e' he'

/-- C2 (confirmed): every `sendMessage` run emits exactly one terminal
event (`complete` or `error`), and it is the last event of the run —
the event trace decomposes as non-terminal events followed by a single
terminal one, on channel-not-found, decryption failure, stream failure,
cancellation, and normal completion alike. -/
theorem sendMessage_exactly_one_terminal (env : ChatEnv) (c u m : String)
    (r0 : List String) :
    ∃ pre t, (sendMessage env c u m r0).events = pre ++ [t] ∧ isTerminal t = true ∧
      ∀ e ∈ pre, isTerminal e = false := by
  by_cases hc : env.channelFound = true
  · by_cases hd : env.decryptOk = true
    · have hne := runRounds_events_not_terminal env MAX_TOOL_ROUNDS 0 initLoopState
        (by intro e he; simp [initLoopState] at he)
      cases hend : (runRounds env MAX_TOOL_ROUNDS 0 initLoopState).2 with
      | finished =>
        by_cases htrim : jsTrim ((runRounds env MAX_TOOL_ROUNDS 0 initLoopState).1).accContent = ""
        · refine ⟨_, SentEvt.streamComplete none, ?_, rfl, hne⟩
          simp [sendMessage, hc, hd, hend, htrim]
        · refine ⟨_, SentEvt.streamComplete (some (env.ids 1)), ?_, rfl, hne⟩
          simp [sendMessage, hc, hd, hend, htrim]
      | raised ab msg =>
        cases ab with
        | true =>
          by_cases hacc : ((runRounds env MAX_TOOL_ROUNDS 0 initLoopState).1).accContent = ""
          · refine ⟨_, SentEvt.streamComplete none, ?_, rfl, hne⟩
            simp [sendMessage, hc, hd, hend, hacc]
          · refine ⟨_, SentEvt.streamComplete (some (env.ids 1)), ?_, rfl, hne⟩
            simp [sendMessage, hc, hd, hend, hacc]
        | false =>
          refine ⟨_, SentEvt.streamError msg, ?_, rfl, hne⟩
          simp [sendMessage, hc, hd, hend]
    · have hd' : env.decryptOk = false := by simpa using hd
      refine ⟨[], SentEvt.streamError "解密 API Key 失败", ?_, rfl, by intro e he; simp at he⟩
      simp [sendMessage, hc, hd']
  · have hc' : env.channelFound = false := by simpa using hc
    refine ⟨[], SentEvt.streamError "渠道不存在", ?_, rfl, by intro e he; simp at he⟩
    simp [sendMessage, hc']

/-! ## Claim C9 — the registry retains no stale handle -/

/-- C9 (confirmed): once a `sendMessage` run completes — success,
failure, or cancellation — the registry holds no mapping for the run's
conversation id: every run that registered a handle (i.e. got past the
configuration checks) removes it unconditionally in the `finally`
block, and the configuration-error early returns never register one, so
an id absent before such a run is still absent after it. -/
theorem sendMessage_registry_no_stale (env : ChatEnv) (c u m : String)
    (r0 : List String) :
    (env.channelFound = true → env.decryptOk = true →
      c ∉ (sendMessage env c u m r0).registry) ∧
    (c ∉ r0 → c ∉ (sendMessage env c u m r0).registry) := by
  have hmem : c ∉ removeReg (insertReg r0 c) c := by
    simp [removeReg, List.mem_filter]
  by_cases hc : env.channelFound = true
  · by_cases hd : env.decryptOk = true
    · have hreg : (sendMessage env c u m r0).registry = removeReg (insertReg r0 c) c := by
        cases hend : (runRounds env MAX_TOOL_ROUNDS 0 initLoopState).2 with
        | finished =>
          by_cases htrim : jsTrim ((runRounds env MAX_TOOL_ROUNDS 0 initLoopState).1).accContent = ""
          · simp [sendMessage, hc, hd, hend, htrim]
          · simp [sendMessage, hc, hd, hend, htrim]
        | raised ab msg =>
          cases ab with
          | true =>
            by_cases hacc : ((runRounds env MAX_TOOL_ROUNDS 0 initLoopState).1).accContent = ""
            · simp [sendMessage, hc, hd, hend, hacc]
            · simp [sendMessage, hc, hd, hend, hacc]
          | false => simp [sendMessage, hc, hd, hend]
      exact ⟨fun _ _ => by rw [hreg]; exact hmem, fun _ => by rw [hreg]; exact hmem⟩
    · have hd' : env.decryptOk = false := by simpa using hd
      have hreg : (sendMessage env c u m r0).registry = r0 := by
        simp [sendMessage, hc, hd']
      exact ⟨fun _ hdd => absurd hdd hd, fun h => by rw [hreg]; exact h⟩
  · have hc' : env.channelFound = false := by simpa using hc
    have hreg : (sendMessage env c u m r0).registry = r0 := by
      simp [sendMessage, hc']
    exact ⟨fun hcc _ => absurd hcc hc, fun h => by rw [hreg]; exact h⟩

/-- Witness for C9 at a concrete successful run. -/
theorem sendMessage_registry_no_stale_witness :
    "conv" ∉ (sendMessage simpleEnv "conv" "hi" "model-x" []).registry :=
  (sendMessage_registry_no_stale simpleEnv "conv" "hi" "model-x" []).1 rfl rfl

/-! ## Claim C4 — the round bound -/

/-- Each loop invocation performs at most `fuel` further stream calls. -/
theorem runRounds_streamCalls_le (env : ChatEnv) :
    ∀ (fuel round : Nat) (st : LoopState),
      ((runRounds env fuel round st).1).streamCalls ≤ st.streamCalls + fuel := by
  intro fuel
  induction fuel with
  | zero => intro round st; simp [runRounds]
  | succ fuel ih =>
    intro round st
    cases hr : env.rounds (round + 1) with
    | thrown evts ab msg =>
      simp only [runRounds, hr]
      omega
    | ok evts result =>
      by_cases hcond : result.toolCalls = [] ∨ result.stopReason ≠ some "tool_use"
      · simp only [runRounds, hr, if_pos hcond]
        omega
      · simp only [runRounds, hr, if_neg hcond]
        refine le_trans (ih (round + 1) _) ?_
        simp
        omega

/-- If every round demands another tool round, the loop exhausts its
fuel exactly, performing one stream call per unit of fuel, and exits
normally (`finished`), not with an error. -/
theorem runRounds_exhausts (env : ChatEnv) (H : ∀ k, keepsLooping (env.rounds k)) :
    ∀ (fuel round : Nat) (st : LoopState),
      ((runRounds env fuel round st).1).streamCalls = st.streamCalls + fuel ∧
      (runRounds env fuel round st).2 = LoopEnd.finished := by
  intro fuel
  induction fuel with
  | zero => intro round st; exact ⟨by simp [runRounds], rfl⟩
  | succ fuel ih =>
    intro round st
    have hk := H (round + 1)
    cases hr : env.rounds (round + 1) with
    | thrown evts ab msg =>
      rw [hr] at hk
      exact absurd hk (by simp [keepsLooping])
    | ok evts result =>
      rw [hr] at hk
      have hcond : ¬(result.toolCalls = [] ∨ result.stopReason ≠ some "tool_use") := by
        simp only [keepsLooping] at hk
        push_neg
        exact ⟨hk.1, hk.2⟩
      constructor
      · simp only [runRounds, hr, if_neg hcond]
        rw [(ih (round + 1) _).1]
        simp
        omega
      · simp only [runRounds, hr, if_neg hcond]
        exact (ih (round + 1) _).2

/-- C4 (confirmed): `MAX_TOOL_ROUNDS` is 5; every run performs at most
that many stream cycles no matter what every stream returns; and when a
run gets past the configuration checks while every stream keeps
demanding tool continuations, the loop performs exactly 5 cycles and
the run still finalizes normally (a `completed` run, not an error),
with whatever content accumulated. -/
theorem sendMessage_bounded_tool_rounds (env : ChatEnv) (c u m : String)
    (r0 : List String) :
    MAX_TOOL_ROUNDS = 5 ∧
    (sendMessage env c u m r0).streamCalls ≤ MAX_TOOL_ROUNDS ∧
    (env.channelFound = true → env.decryptOk = true →
      (∀ k, keepsLooping (env.rounds k)) →
      (sendMessage env c u m r0).streamCalls = MAX_TOOL_ROUNDS ∧
      (sendMessage env c u m r0).ended = RunEnd.completed) := by
  have hproj : ∀ (hc : env.channelFound = true) (hd : env.decryptOk = true),
      (sendMessage env c u m r0).streamCalls
        = ((runRounds env MAX_TOOL_ROUNDS 0 initLoopState).1).streamCalls := by
    intro hc hd
    cases hend : (runRounds env MAX_TOOL_ROUNDS 0 initLoopState).2 with
    | finished =>
      by_cases htrim : jsTrim ((runRounds env MAX_TOOL_ROUNDS 0 initLoopState).1).accContent = ""
      · simp [sendMessage, hc, hd, hend, htrim]
      · simp [sendMessage, hc, hd, hend, htrim]
    | raised ab msg =>
      cases ab with
      | true =>
        by_cases hacc : ((runRounds env MAX_TOOL_ROUNDS 0 initLoopState).1).accContent = ""
        · simp [sendMessage, hc, hd, hend, hacc]
        · simp [sendMessage, hc, hd, hend, hacc]
      | false => simp [sendMessage, hc, hd, hend]
  refine ⟨rfl, ?_, ?_⟩
  · by_cases hc : env.channelFound = true
    · by_cases hd : env.decryptOk = true
      · rw [hproj hc hd]
        have := runRounds_streamCalls_le env MAX_TOOL_ROUNDS 0 initLoopState
        simpa [initLoopState] using this
      · have hd' : env.decryptOk = false := by simpa using hd
        simp [sendMessage, hc, hd', MAX_TOOL_ROUNDS]
    · have hc' : env.channelFound = false := by simpa using hc
      simp [sendMessage, hc', MAX_TOOL_ROUNDS]
  · intro hc hd H
    have hex := runRounds_exhausts env H MAX_TOOL_ROUNDS 0 initLoopState
    constructor
    · rw [hproj hc hd, hex.1]
      simp [initLoopState]
    · cases hend : (runRounds env MAX_TOOL_ROUNDS 0 initLoopState).2 with
      | finished =>
        by_cases htrim : jsTrim ((runRounds env MAX_TOOL_ROUNDS 0 initLoopState).1).accContent = ""
        · simp [sendMessage, hc, hd, hend, htrim]
        · simp [sendMessage, hc, hd, hend, htrim]
      | raised ab msg => rw [hex.2] at hend; exact absurd hend (by simp)

/-- Witness for C4: under `loopingEnv` the loop runs exactly 5 stream
cycles, terminates as a normal completion, and finalizes with the five
accumulated chunks. -/
theorem sendMessage_bounded_tool_rounds_witness :
    (sendMessage loopingEnv "conv" "hi" "model-x" []).streamCalls = 5 ∧
    (sendMessage loopingEnv "conv" "hi" "model-x" []).ended = RunEnd.completed ∧
    (sendMessage loopingEnv "conv" "hi" "model-x" []).accContent = "aaaaa" := by
  have h := (sendMessage_bounded_tool_rounds loopingEnv "conv" "hi" "model-x" []).2.2
    rfl rfl (fun k => by simp [loopingEnv, keepsLooping])
  exact ⟨h.1, h.2, by decide⟩

/-! ## Claims C1 and C10 — persistence on cancellation and completion -/

/-- Boolean role comparison used by `assistantMessages`. -/
theorem role_user_beq_assistant : (Role.user == Role.assistant) = false := rfl

/-- Boolean role comparison used by `assistantMessages`. -/
theorem role_assistant_beq_assistant : (Role.assistant == Role.assistant) = true := rfl

/-- C1 (confirmed): a run whose stream was cancelled mid-flight
(`ended = cancelled`, i.e. the rejection was observed with the abort
signal fired) persists, when the accumulated partial content is
non-empty, exactly one assistant turn whose content is that accumulated
string and whose `stopped` flag is set, and its terminal `complete`
event carries that turn's message id; when nothing had accumulated, no
assistant message is persisted and the terminal `complete` event
carries no message id. -/
theorem sendMessage_cancel_saves_stopped_turn (env : ChatEnv) (c u m : String)
    (r0 : List String) (h : (sendMessage env c u m r0).ended = RunEnd.cancelled) :
    ((sendMessage env c u m r0).accContent ≠ "" →
      ∃ amsg, assistantMessages (sendMessage env c u m r0) = [amsg] ∧
        amsg.content = (sendMessage env c u m r0).accContent ∧
        amsg.stopped = true ∧
        (sendMessage env c u m r0).events.getLast?
          = some (SentEvt.streamComplete (some amsg.id))) ∧
    ((sendMessage env c u m r0).accContent = "" →
      assistantMessages (sendMessage env c u m r0) = [] ∧
      (sendMessage env c u m r0).events.getLast?
        = some (SentEvt.streamComplete none)) := by
  by_cases hc : env.channelFound = true
  case neg =>
    have hc' : env.channelFound = false := by simpa using hc
    exfalso
    simp [sendMessage, hc'] at h
  by_cases hd : env.decryptOk = true
  case neg =>
    have hd' : env.decryptOk = false := by simpa using hd
    exfalso
    simp [sendMessage, hc, hd'] at h
  cases hend : (runRounds env MAX_TOOL_ROUNDS 0 initLoopState).2 with
  | finished =>
    exfalso
    by_cases htrim : jsTrim ((runRounds env MAX_TOOL_ROUNDS 0 initLoopState).1).accContent = ""
    · simp [sendMessage, hc, hd, hend, htrim] at h
    · simp [sendMessage, hc, hd, hend, htrim] at h
  | raised ab msg =>
    cases ab with
    | false =>
      exfalso
      simp [sendMessage, hc, hd, hend] at h
    | true =>
      by_cases hacc : ((runRounds env MAX_TOOL_ROUNDS 0 initLoopState).1).accContent = ""
      · constructor
        · intro hne
          exfalso
          apply hne
          simp [sendMessage, hc, hd, hend, hacc]
        · intro _
          constructor
          · simp [sendMessage, hc, hd, hend, hacc, assistantMessages,
              role_user_beq_assistant]
          · simp [sendMessage, hc, hd, hend, hacc, List.getLast?_concat]
      · constructor
        · intro _
          refine ⟨{ id := env.ids 1
                    role := Role.assistant
                    content := ((runRounds env MAX_TOOL_ROUNDS 0 initLoopState).1).accContent
                    reasoning :=
                      (if ((runRounds env MAX_TOOL_ROUNDS 0 initLoopState).1).accReasoning = ""
                       then none
                       else some ((runRounds env MAX_TOOL_ROUNDS 0 initLoopState).1).accReasoning)
                    model := some m
                    stopped := true }, ?_, ?_, rfl, ?_⟩
          · simp [sendMessage, hc, hd, hend, hacc, assistantMessages,
              role_user_beq_assistant, role_assistant_beq_assistant]
          · simp [sendMessage, hc, hd, hend, hacc]
          · simp [sendMessage, hc, hd, hend, hacc, List.getLast?_concat]
        · intro habs
          exfalso
          apply hacc
          simp [sendMessage, hc, hd, hend, hacc] at habs

/-- Witness for C1 at the spec's own example content. -/
theorem sendMessage_cancel_saves_stopped_turn_witness :
    ∃ amsg,
      assistantMessages (sendMessage helloCancelEnv "conv" "hi" "model-x" []) = [amsg] ∧
      amsg.content = (sendMessage helloCancelEnv "conv" "hi" "model-x" []).accContent ∧
      amsg.stopped = true ∧
      (sendMessage helloCancelEnv "conv" "hi" "model-x" []).events.getLast?
        = some (SentEvt.streamComplete (some amsg.id)) :=
  (sendMessage_cancel_saves_stopped_turn helloCancelEnv "conv" "hi" "model-x" []
    (by decide)).1 (by decide)

/-- C10 (confirmed): on normal completion an assistant message is
persisted iff the accumulated content is non-empty after trimming, and
the terminal `complete` event carries a message id iff a message was
persisted; on cancellation, persistence is decided by plain
(untrimmed) non-emptiness and the persisted turn carries the `stopped`
flag — so a whitespace-only accumulation is persisted on cancellation
but not on normal completion. -/
theorem sendMessage_persistence_asymmetry (env : ChatEnv) (c u m : String)
    (r0 : List String) :
    ((sendMessage env c u m r0).ended = RunEnd.completed →
      (jsTrim (sendMessage env c u m r0).accContent = "" →
        assistantMessages (sendMessage env c u m r0) = [] ∧
        (sendMessage env c u m r0).events.getLast?
          = some (SentEvt.streamComplete none)) ∧
      (jsTrim (sendMessage env c u m r0).accContent ≠ "" →
        ∃ amsg, assistantMessages (sendMessage env c u m r0) = [amsg] ∧
          amsg.content = (sendMessage env c u m r0).accContent ∧
          amsg.stopped = false ∧
          (sendMessage env c u m r0).events.getLast?
            = some (SentEvt.streamComplete (some amsg.id)))) ∧
    ((sendMessage env c u m r0).ended = RunEnd.cancelled →
      ((sendMessage env c u m r0).accContent = "" →
        assistantMessages (sendMessage env c u m r0) = []) ∧
      ((sendMessage env c u m r0).accContent ≠ "" →
        ∃ amsg, assistantMessages (sendMessage env c u m r0) = [amsg] ∧
          amsg.content = (sendMessage env c u m r0).accContent ∧
          amsg.stopped = true)) := by
  by_cases hc : env.channelFound = true
  case neg =>
    have hc' : env.channelFound = false := by simpa using hc
    constructor
    · intro h
      exfalso
      simp [sendMessage, hc'] at h
    · intro h
      exfalso
      simp [sendMessage, hc'] at h
  by_cases hd : env.decryptOk = true
  case neg =>
    have hd' : env.decryptOk = false := by simpa using hd
    constructor
    · intro h
      exfalso
      simp [sendMessage, hc, hd'] at h
    · intro h
      exfalso
      simp [sendMessage, hc, hd'] at h
  cases hend : (runRounds env MAX_TOOL_ROUNDS 0 initLoopState).2 with
  | finished =>
    by_cases htrim : jsTrim ((runRounds env MAX_TOOL_ROUNDS 0 initLoopState).1).accContent = ""
    · constructor
      · intro _
        constructor
        · intro _
          constructor
          · simp [sendMessage, hc, hd, hend, htrim, assistantMessages,
              role_user_beq_assistant]
          · simp [sendMessage, hc, hd, hend, htrim, List.getLast?_concat]
        · intro habs
          exfalso
          apply habs
          simp [sendMessage, hc, hd, hend, htrim]
      · intro h
        exfalso
        simp [sendMessage, hc, hd, hend, htrim] at h
    · constructor
      · intro _
        constructor
        · intro habs
          exfalso
          apply htrim
          simp [sendMessage, hc, hd, hend, htrim] at habs
        · intro _
          refine ⟨{ id := env.ids 1
                    role := Role.assistant
                    content := ((runRounds env MAX_TOOL_ROUNDS 0 initLoopState).1).accContent
                    reasoning :=
                      (if ((runRounds env MAX_TOOL_ROUNDS 0 initLoopState).1).accReasoning = ""
                       then none
                       else some ((runRounds env MAX_TOOL_ROUNDS 0 initLoopState).1).accReasoning)
                    model := some m
                    stopped := false }, ?_, ?_, rfl, ?_⟩
          · simp [sendMessage, hc, hd, hend, htrim, assistantMessages,
              role_user_beq_assistant, role_assistant_beq_assistant]
          · simp [sendMessage, hc, hd, hend, htrim]
          · simp [sendMessage, hc, hd, hend, htrim, List.getLast?_concat]
      · intro h
        exfalso
        simp [sendMessage, hc, hd, hend, htrim] at h
  | raised ab msg =>
    cases ab with
    | false =>
      constructor
      · intro h
        exfalso
        simp [sendMessage, hc, hd, hend] at h
      · intro h
        exfalso
        simp [sendMessage, hc, hd, hend] at h
    | true =>
      by_cases hacc : ((runRounds env MAX_TOOL_ROUNDS 0 initLoopState).1).accContent = ""
      · constructor
        · intro h
          exfalso
          simp [sendMessage, hc, hd, hend, hacc] at h
        · intro _
          constructor
          · intro _
            simp [sendMessage, hc, hd, hend, hacc, assistantMessages,
              role_user_beq_assistant]
          · intro hne
            exfalso
            apply hne
            simp [sendMessage, hc, hd, hend, hacc]
      · constructor
        · intro h
          exfalso
          simp [sendMessage, hc, hd, hend, hacc] at h
        · intro _
          constructor
          · intro habs
            exfalso
            apply hacc
            simp [sendMessage, hc, hd, hend, hacc] at habs
          · intro _
            refine ⟨{ id := env.ids 1
                      role := Role.assistant
                      content := ((runRounds env MAX_TOOL_ROUNDS 0 initLoopState).1).accContent
                      reasoning :=
                        (if ((runRounds env MAX_TOOL_ROUNDS 0 initLoopState).1).accReasoning = ""
                         then none
                         else some ((runRounds env MAX_TOOL_ROUNDS 0 initLoopState).1).accReasoning)
                      model := some m
                      stopped := true }, ?_, ?_, rfl⟩
            · simp [sendMessage, hc, hd, hend, hacc, assistantMessages,
                role_user_beq_assistant, role_assistant_beq_assistant]
            · simp [sendMessage, hc, hd, hend, hacc]

/-- Witness for C10: the same whitespace-only accumulation `" "` is not
persisted by a normal completion but is persisted (stopped-flagged) by
a cancellation. -/
theorem sendMessage_persistence_asymmetry_witness :
    assistantMessages (sendMessage wsNormalEnv "conv" "hi" "model-x" []) = [] ∧
    ∃ amsg,
      assistantMessages (sendMessage wsCancelEnv "conv" "hi" "model-x" []) = [amsg] ∧
      amsg.content = (sendMessage wsCancelEnv "conv" "hi" "model-x" []).accContent ∧
      amsg.stopped = true :=
  ⟨(((sendMessage_persistence_asymmetry wsNormalEnv "conv" "hi" "model-x" []).1
      (by decide)).1 (by decide)).1,
   ((sendMessage_persistence_asymmetry wsCancelEnv "conv" "hi" "model-x" []).2
      (by decide)).2 (by decide)⟩
